import Mathlib

/-!
Verification of the scoring-and-recommendation core of the UK Science Parks
Intelligence tool (`app.py`).  Python dictionaries are embedded as structures
with `Option` fields (a key that is missing or mapped to `None` is `none`);
a falsy dict (`{}` / `None`) at a use site is the `none` case of an outer
`Option`.  Python floats carrying Ofcom percentages are idealised as exact
rationals, and Python `round` (round half to even) is embedded
as `pyRound`.  Python string primitives (`str.lower`, `str.strip`,
substring `in`, digit filtering, `str(int)`) are embedded as executable
functions over `List Char`.
-/

namespace ParkIntel

/-! ### Python string primitives -/

/-- Python `str.lower` (ASCII, which is all the data uses). -/
def pyLower (s : String) : String :=
  ⟨s.data.map Char.toLower⟩

/-- Whitespace for Python `str.strip`. -/
def isSpaceChar (c : Char) : Bool :=
  c == ' ' || c == '\t' || c == '\n' || c == '\r' ||
    c == Char.ofNat 11 || c == Char.ofNat 12

/-- Python `str.strip()`: remove leading and trailing whitespace. -/
def pyStrip (s : String) : String :=
  ⟨((s.data.dropWhile isSpaceChar).reverse.dropWhile isSpaceChar).reverse⟩

/-- Does `pat` occur at the head of `l`? -/
def headMatch : List Char → List Char → Bool
  | [], _ => true
  | _ :: _, [] => false
  | a :: as, b :: bs => a == b && headMatch as bs

/-- Does `pat` occur somewhere in `l`?  (Python `pat in l` on strings.) -/
def hasSub (pat : List Char) : List Char → Bool
  | [] => pat.isEmpty
  | b :: bs => headMatch pat (b :: bs) || hasSub pat bs

/-- Python substring test `pat in s`. -/
def pyIn (pat s : String) : Bool :=
  hasSub pat.data s.data

/-- Numeric value of a list of decimal digit characters (Python `int` on an
all-digit string). -/
def digitsVal (ds : List Char) : ℕ :=
  ds.foldl (fun n c => 10 * n + (c.toNat - 48)) 0

/-- Decimal digit character. -/
def digitChar (n : ℕ) : Char :=
  Char.ofNat (48 + n)

/-- Fuel-driven decimal printer (the fuel is an upper bound on the number,
so it never runs out). -/
def natDigitsAux : ℕ → ℕ → List Char
  | 0, _ => []
  | fuel + 1, n =>
    if n < 10 then [digitChar n] else natDigitsAux fuel (n / 10) ++ [digitChar (n % 10)]

/-- Python `str(n)` for a natural number. -/
def pyNatRepr (n : ℕ) : String :=
  ⟨natDigitsAux (n + 1) n⟩

/-! ### Data model -/

/-- Nested `connectivity` sub-object of a raw `area_data.json` entry. -/
structure ConnData where
  full_fibre_pct    : Option ℚ := none
  gigabit_pct       : Option ℚ := none
  superfast_pct     : Option ℚ := none
  no_decent_pct     : Option ℚ := none
  ff_takeup_pct     : Option ℚ := none
  avg_data_usage_gb : Option ℚ := none
  deriving DecidableEq

/-- Nested `mobile` sub-object of a raw `area_data.json` entry. -/
structure MobileData where
  indoor_4g_all_operators_pct    : Option ℚ := none
  outdoor_4g_all_operators_pct   : Option ℚ := none
  outdoor_5g_all_operators_pct   : Option ℚ := none
  indoor_voice_all_operators_pct : Option ℚ := none
  deriving DecidableEq

/-- A truthy raw area entry (a non-empty dict); a falsy raw entry is `none`
at the use sites. -/
structure RawArea where
  connectivity : Option ConnData := none
  mobile       : Option MobileData := none
  deriving DecidableEq

/-- The flat record produced by `flatten_ofcom` (the ten canonical fields,
each possibly `None`). -/
structure OfcomRecord where
  full_fibre_pct        : Option ℚ := none
  gigabit_pct           : Option ℚ := none
  superfast_pct         : Option ℚ := none
  no_decent_pct         : Option ℚ := none
  full_fibre_takeup_pct : Option ℚ := none
  avg_data_usage_gb     : Option ℚ := none
  indoor_4g_pct         : Option ℚ := none
  outdoor_4g_pct        : Option ℚ := none
  outdoor_5g_pct        : Option ℚ := none
  indoor_voice_pct      : Option ℚ := none
  deriving DecidableEq

/-- The park-profile fields the opportunity/flag engine reads. -/
structure Park where
  sector  : Option String := none
  notes   : Option String := none
  tenants : Option String := none
  deriving DecidableEq

/-- A company record from the registry search. -/
structure Company where
  company_status : String := ""
  sic_codes      : List String := []
  deriving DecidableEq

/-! ### Normalizer and resolver -/

/-- `flatten_ofcom(raw)`: `none` stands for a falsy raw entry (missing or
empty), and a `none` result stands for the returned empty dict. -/
def flatten_ofcom (raw : Option RawArea) : Option OfcomRecord :=
  match raw with
  | none => none
  | some r =>
    let conn := r.connectivity.getD {}
    let mob  := r.mobile.getD {}
    let flat : OfcomRecord :=
      { full_fibre_pct        := conn.full_fibre_pct
        gigabit_pct           := conn.gigabit_pct
        superfast_pct         := conn.superfast_pct
        no_decent_pct         := conn.no_decent_pct
        full_fibre_takeup_pct := conn.ff_takeup_pct
        avg_data_usage_gb     := conn.avg_data_usage_gb
        indoor_4g_pct         := mob.indoor_4g_all_operators_pct
        outdoor_4g_pct        := mob.outdoor_4g_all_operators_pct
        outdoor_5g_pct        := mob.outdoor_5g_all_operators_pct
        indoor_voice_pct      := mob.indoor_voice_all_operators_pct }
    let conn_vals := [flat.full_fibre_pct, flat.gigabit_pct,
                      flat.indoor_4g_pct, flat.outdoor_5g_pct].filterMap id
    if conn_vals ≠ [] ∧ ∀ v ∈ conn_vals, v = 0 then none else some flat

/-- `get_ofcom(local_authority)`: exact case/whitespace-insensitive key match
first, then bidirectional substring match, over the dataset in iteration
order. -/
def get_ofcom (local_authority : String) (data : List (String × Option RawArea)) :
    Option OfcomRecord :=
  if data.isEmpty then none
  else
    let la_lower := pyStrip (pyLower local_authority)
    match data.find? (fun kv => pyStrip (pyLower kv.1) == la_lower) with
    | some kv => flatten_ofcom kv.2
    | none =>
      match data.find? (fun kv => pyIn la_lower (pyLower kv.1) || pyIn (pyLower kv.1) la_lower) with
      | some kv => flatten_ofcom kv.2
      | none => none

/-! ### Scorers -/

/-- Python `round`: round half to even, on exact rationals. -/
def pyRound (q : ℚ) : ℤ :=
  if q - ⌊q⌋ < 1/2 then ⌊q⌋
  else if 1/2 < q - ⌊q⌋ then ⌊q⌋ + 1
  else if ⌊q⌋ % 2 = 0 then ⌊q⌋ else ⌊q⌋ + 1

/-- `ofcom.get(field, 0) or 0`: a missing key, `None`, and `0` all collapse
to `0`. -/
def getQ (ofcom : Option OfcomRecord) (f : OfcomRecord → Option ℚ) : ℚ :=
  match ofcom with
  | none => 0
  | some r => (f r).getD 0

/-- Raw (pre-rounding) weighted sum inside `score_connectivity`. -/
def connRaw (r : OfcomRecord) : ℚ :=
  min 40 ((r.full_fibre_pct.getD 0) * 0.4) + min 20 ((r.gigabit_pct.getD 0) * 0.3)
    + min 20 ((r.superfast_pct.getD 0) * 0.2)
    + max 0 (20 - (r.no_decent_pct.getD 0) * 2)

/-- `score_connectivity(ofcom)`: `(None, "No data")` on a falsy record,
otherwise the rounded weighted score and its RAG tier. -/
def score_connectivity (ofcom : Option OfcomRecord) : Option ℤ × String :=
  match ofcom with
  | none => (none, "No data")
  | some r =>
    let score := pyRound (connRaw r)
    let rag := if score ≥ 70 then "Green" else if score ≥ 40 then "Amber" else "Red"
    (some score, rag)

/-- Raw (pre-rounding) weighted sum inside `score_mobile`. -/
def mobileRaw (r : OfcomRecord) : ℚ :=
  min 40 ((r.indoor_4g_pct.getD 0) * 0.4) + min 40 ((r.outdoor_5g_pct.getD 0) * 0.4)
    + min 20 ((r.indoor_voice_pct.getD 0) * 0.2)

/-- `score_mobile(ofcom)`: `None` on a falsy record, otherwise the rounded
weighted mobile score. -/
def score_mobile (ofcom : Option OfcomRecord) : Option ℤ :=
  match ofcom with
  | none => none
  | some r => some (pyRound (mobileRaw r))

/-! ### Company classifier -/

/-- The fixed sector map of `classify_companies`, in insertion order. -/
def sector_map : List (String × List ℕ) :=
  [("Research & Development", [72]),
   ("Software & IT", [62, 63]),
   ("Pharma & Biotech", [21, 8630]),
   ("Medical Devices", [2660, 8600]),
   ("Engineering", [25, 28, 33]),
   ("Energy Tech", [35, 3511, 3512]),
   ("Telecoms", [61]),
   ("Manufacturing", [24, 26, 27, 29, 30])]

/-- `int(str(sic)[:4])`: the first four characters parsed as a number,
`none` when that fails (non-digit characters or an empty string). -/
def sicCode (sic : String) : Option ℕ :=
  let s4 := sic.data.take 4
  if s4 ≠ [] ∧ s4.all Char.isDigit then some (digitsVal s4) else none

/-- The contribution pass of one company in `classify_companies` over the running
counts (sector name, code set, count). -/
def classifyStep (counts : List (String × List ℕ × ℕ)) (co : Company) :
    List (String × List ℕ × ℕ) :=
  if pyLower co.company_status ≠ "active" then counts
  else
    co.sic_codes.foldl (fun cs sic =>
      match sicCode sic with
      | none => cs
      | some code => cs.map (fun t => if code ∈ t.2.1 then (t.1, t.2.1, t.2.2 + 1) else t)) counts

/-- `classify_companies(companies)`: sector counts over active companies,
restricted to sectors with a positive count, in sector-map order. -/
def classify_companies (companies : List Company) : List (String × ℕ) :=
  let final := companies.foldl classifyStep (sector_map.map (fun kv => (kv.1, kv.2, 0)))
  (final.filter (fun t => decide (0 < t.2.2))).map (fun t => (t.1, t.2.2))

/-! ### Opportunity / flag engine: the canned strings -/

def fullFibreOpStr : String :=
  "Campus-wide full fibre upgrade — current LA area significantly below research-grade threshold"

def gigabitOpStr : String :=
  "Gigabit connectivity programme for high-bandwidth research data transmission and cloud uplinks"

def migrationOpStr : String :=
  "Managed connectivity migration — full fibre available but take-up low; active programme needed"

def indoor4gOpStr : String :=
  "Indoor 4G/mobile enhancement — below threshold for campus working and IoT lab equipment"

def fiveGOpStr : String :=
  "5G readiness / private 5G network for smart campus applications and sensor networks"

def lifeSciOpStr : String :=
  "Dedicated high-bandwidth research network tier for genomics/biomedical data transmission (100GB+ per sequencing run)"

def secureOpStr : String :=
  "Secure segregated network architecture for ITAR/export control compliance and sensitive research"

def startupOpStr : String :=
  "Flexible start-up connectivity packages with scalable bandwidth to match company growth stages"

def resilienceOpStr : String :=
  "High-resilience network with dual-path routing for research process continuity"

def hpcOpStr : String :=
  "10Gbps+ connectivity for GPU/HPC cluster operations and large model training data ingestion"

def complianceOpStr : String :=
  "Compliance-ready network with audit logging and access controls for MHRA/ICH regulatory environment"

def registryOpStr (n : ℕ) : String :=
  "Campus-wide managed connectivity covering " ++ pyNatRepr n ++
    "+ active registered companies — economies of scale vs individual procurement"

def scaleOpStr : String :=
  "Campus-scale network more cost-effective than per-tenant provision at this scale"

def lifeSciKws : List String := ["genomic", "biomedical", "sequenc", "clinical"]
def sensitiveKws : List String := ["space", "satellite", "itar", "defence"]
def startupKws : List String := ["incubat", "early-stage", "spinout", "accelerat"]
def energyKws : List String := ["nuclear", "fusion", "energy"]
def hpcKws : List String := ["ai", "gpu", "computing", "hpc", "deep tech"]
def pharmaKws : List String := ["pharma", "clinical trial", "mhra"]

/-- Keyword-group test `any(x in sector or x in notes for x in kws)`. -/
def kwHit (kws : List String) (sector notes : String) : Bool :=
  kws.any (fun x => pyIn x sector || pyIn x notes)

/-! ### Opportunity engine -/

/-- The five connectivity-threshold rules, in source order. -/
def thresholdOps (ofcom : Option OfcomRecord) : List String :=
  let ff := getQ ofcom OfcomRecord.full_fibre_pct
  let gig := getQ ofcom OfcomRecord.gigabit_pct
  let takeup := getQ ofcom OfcomRecord.full_fibre_takeup_pct
  let g4 := getQ ofcom OfcomRecord.indoor_4g_pct
  let g5 := getQ ofcom OfcomRecord.outdoor_5g_pct
  (if ff < 60 then [fullFibreOpStr] else [])
    ++ (if gig < 50 then [gigabitOpStr] else [])
    ++ (if 60 < ff ∧ takeup < 30 then [migrationOpStr] else [])
    ++ (if g4 < 80 then [indoor4gOpStr] else [])
    ++ (if g5 < 40 then [fiveGOpStr] else [])

/-- The six sector/notes keyword rules, in source order. -/
def keywordOps (park : Park) : List String :=
  let sector := pyLower (park.sector.getD "")
  let notes := pyLower (park.notes.getD "")
  (if kwHit lifeSciKws sector notes then [lifeSciOpStr] else [])
    ++ (if kwHit sensitiveKws sector notes then [secureOpStr] else [])
    ++ (if kwHit startupKws sector notes then [startupOpStr] else [])
    ++ (if kwHit energyKws sector notes then [resilienceOpStr] else [])
    ++ (if kwHit hpcKws sector notes then [hpcOpStr] else [])
    ++ (if kwHit pharmaKws sector notes then [complianceOpStr] else [])

/-- Number of companies whose status is "active". -/
def activeCount (companies : List Company) : ℕ :=
  companies.countP (fun c => pyLower c.company_status == "active")

/-- The registry rule: 20 or more active companies. -/
def registryOps (companies : List Company) : List String :=
  let n := activeCount companies
  if 20 ≤ n then [registryOpStr n] else []

/-- `int("".join(filter(str.isdigit, str(tenants).split("+")[0].split(",")[0])))`,
`none` when the digit string is empty (the `int` call raises). -/
def tenantNum (tenants : String) : Option ℕ :=
  let ds := ((tenants.data.takeWhile (· != '+')).takeWhile (· != ',')).filter Char.isDigit
  if ds.isEmpty then none else some (digitsVal ds)

/-- The tenant-scale rule: a parsed tenant count above 100. -/
def scaleOps (park : Park) : List String :=
  match tenantNum (park.tenants.getD "") with
  | some t => if 100 < t then [scaleOpStr] else []
  | none => []

/-- The full, untruncated opportunity list, in source evaluation order:
threshold rules, then keyword rules, then the registry rule, then the
tenant-scale rule. -/
def opsFull (park : Park) (ofcom : Option OfcomRecord) (companies : List Company) :
    List String :=
  thresholdOps ofcom ++ keywordOps park ++ registryOps companies ++ scaleOps park

/-- `generate_opportunities(park, ofcom, companies)`: the rule outputs in
evaluation order, capped at 8 entries (`ops[:8] if len(ops) > 8 else ops`). -/
def generate_opportunities (park : Park) (ofcom : Option OfcomRecord)
    (companies : List Company) : List String :=
  let ops := opsFull park ofcom companies
  if ops.length > 8 then ops.take 8 else ops

/-! ### Flag engine -/

/-- Python `f"{q:.1f}"`, idealised on exact rationals: one decimal place,
half to even. -/
def fmt1 (q : ℚ) : String :=
  let n := pyRound (q * 10)
  let a := n.natAbs
  (if n < 0 then "-" else "") ++ pyNatRepr (a / 10) ++ "." ++ pyNatRepr (a % 10)

def ffBelow50Title : String := "⚠ Full fibre below 50%"
def ffGapTitle : String := "⚠ Full fibre availability gap"
def gigFlagTitle : String := "⚠ Gigabit coverage insufficient"
def takeupFlagTitle : String := "⚠ Take-up gap identified"
def g4FlagTitle : String := "⚠ Indoor 4G below threshold"
def g5FlagTitle : String := "⚠ 5G readiness low"
def lifeFlagTitle : String := "ℹ Life sciences data intensity"
def sensFlagTitle : String := "ℹ Sensitive sector — elevated security"

def flagLifeKws : List String := ["genomic", "biomedical", "sequenc"]
def flagSensKws : List String := ["defence", "itar", "space", "nuclear", "secret"]

/-- `generate_flags(park, ofcom)`: every flag whose rule fires, in source
order, never truncated. -/
def generate_flags (park : Park) (ofcom : Option OfcomRecord) :
    List (String × String) :=
  let ff := getQ ofcom OfcomRecord.full_fibre_pct
  let gig := getQ ofcom OfcomRecord.gigabit_pct
  let takeup := getQ ofcom OfcomRecord.full_fibre_takeup_pct
  let g4 := getQ ofcom OfcomRecord.indoor_4g_pct
  let g5 := getQ ofcom OfcomRecord.outdoor_5g_pct
  let sector := pyLower (park.sector.getD "")
  let notes := pyLower (park.notes.getD "")
  (if ff < 50 then
      [(ffBelow50Title, fmt1 ff ++ "% availability — significantly below science campus threshold")]
    else if ff < 75 then
      [(ffGapTitle, fmt1 ff ++ "% — below 75% recommended for research operations")]
    else [])
    ++ (if gig < 50 then
          [(gigFlagTitle, fmt1 gig ++ "% — inadequate for high-bandwidth research applications")]
        else [])
    ++ (if 50 < ff ∧ takeup < 25 then
          [(takeupFlagTitle, "Full fibre available (" ++ fmt1 ff ++ "%) but take-up only "
              ++ fmt1 takeup ++ "% — migration programme needed")]
        else [])
    ++ (if g4 < 75 then
          [(g4FlagTitle, fmt1 g4 ++ "% across all operators — affects campus mobility and IoT")]
        else [])
    ++ (if g5 < 30 then
          [(g5FlagTitle, "Outdoor 5G at " ++ fmt1 g5 ++ "% — limiting smart campus and future-proofing options")]
        else [])
    ++ (if kwHit flagLifeKws sector notes then
          [(lifeFlagTitle, "Genomics/biomedical operations require dedicated high-bandwidth research links beyond standard connectivity")]
        else [])
    ++ (if kwHit flagSensKws sector notes then
          [(sensFlagTitle, "Potential ITAR/export control requirements; network architecture should include physical access security")]
        else [])

/-! ### Spec-side definition for the refinement part of the scorer claim -/

/-- The connectivity formula exactly as the spec words it: the weighted sum
with the total clamped to [0,100] before rounding.  Compared against the
code function `score_connectivity`, which has no clamp. -/
def specClampedConn (r : OfcomRecord) : ℚ :=
  max 0 (min 100 (connRaw r))

/-! ### Concrete inputs used by witnesses and counterexamples -/

/-- The Opportunity Engine test vector from the spec (full fibre 45, gigabit 35,
take-up 10, no-decent 5, indoor 4G 60, outdoor 5G 20). -/
def ofcomC1 : OfcomRecord :=
  { full_fibre_pct := some 45, gigabit_pct := some 35, full_fibre_takeup_pct := some 10,
    no_decent_pct := some 5, indoor_4g_pct := some 60, outdoor_5g_pct := some 20 }

/-- The test-vector park from the spec, with sector text "genomics research park". -/
def parkC1 : Park := { sector := some ("genomics research park") }

/-- A record on which none of the connectivity threshold rules fires. -/
def ofcomGood : OfcomRecord :=
  { full_fibre_pct := some 80, gigabit_pct := some 80, superfast_pct := some 95,
    no_decent_pct := some 1, full_fibre_takeup_pct := some 50,
    indoor_4g_pct := some 90, outdoor_5g_pct := some 60, indoor_voice_pct := some 95 }

/-- A park with no keyword text and no parseable tenant count. -/
def parkQuiet : Park := { sector := some ("business park") }

/-- A park whose tenants text parses to 150 (fires the scale rule). -/
def parkC4 : Park := { tenants := some ("150") }

/-- Twenty active companies (fires the registry rule). -/
def companies20 : List Company := List.replicate 20 { company_status := "active" }

/-- A record below every flag threshold. -/
def ofcomBad : OfcomRecord :=
  { full_fibre_pct := some 40, gigabit_pct := some 35, full_fibre_takeup_pct := some 10,
    indoor_4g_pct := some 60, outdoor_5g_pct := some 20 }

/-- A present record with mobile fields entirely absent. -/
def ffOnly : OfcomRecord := { full_fibre_pct := some 70 }

/-- Connectivity sub-group with the two headline broadband fields at zero. -/
def connZero : ConnData := { full_fibre_pct := some 0, gigabit_pct := some 0 }

/-- Mobile sub-group with the two headline mobile fields at zero. -/
def mobZero : MobileData :=
  { indoor_4g_all_operators_pct := some 0, outdoor_5g_all_operators_pct := some 0 }

/-- A raw entry with all four headline fields present and zero. -/
def rawZero : RawArea := { connectivity := some connZero, mobile := some mobZero }

/-- A non-empty raw entry whose sub-groups are present but contain none of
the ten canonical fields. -/
def rawEmptyGroups : RawArea := { connectivity := some {}, mobile := some {} }

/-- A scorer input hitting the weighted-sum value 69 exactly. -/
def ofcom69 : OfcomRecord :=
  { full_fibre_pct := some 100, gigabit_pct := some 100, superfast_pct := some 45,
    no_decent_pct := some 10 }

/-- A two-entry area dataset: the first key matches the query "oxford" only
by substring, the second matches exactly after case/whitespace folding. -/
def areaDataOx : List (String × Option RawArea) :=
  [("Oxfordshire", some rawEmptyGroups), (" Oxford", some rawZero)]

/-! ## Lemmas about `pyRound` -/

theorem pyRound_intCast (n : ℤ) : pyRound (n : ℚ) = n := by
  unfold pyRound
  rw [Int.floor_intCast]
  norm_num

theorem pyRound_eq_int {q : ℚ} {n : ℤ} (h : q = (n : ℚ)) : pyRound q = n := by
  rw [h, pyRound_intCast]

theorem floor_le_pyRound (q : ℚ) : ⌊q⌋ ≤ pyRound q := by
  unfold pyRound
  split_ifs <;> omega

theorem pyRound_le_floor_add_one (q : ℚ) : pyRound q ≤ ⌊q⌋ + 1 := by
  unfold pyRound
  split_ifs <;> omega

theorem pyRound_mono {a b : ℚ} (h : a ≤ b) : pyRound a ≤ pyRound b := by
  have hf : ⌊a⌋ ≤ ⌊b⌋ := Int.floor_mono h
  rcases lt_or_eq_of_le hf with hlt | heq
  · have h1 : pyRound a ≤ ⌊a⌋ + 1 := pyRound_le_floor_add_one a
    have h2 : ⌊b⌋ ≤ pyRound b := floor_le_pyRound b
    omega
  · have hab : a - (⌊b⌋ : ℚ) ≤ b - (⌊b⌋ : ℚ) := by linarith
    unfold pyRound
    rw [← heq] at *
    split_ifs <;> first | omega | linarith

theorem pyRound_nonneg {q : ℚ} (h : 0 ≤ q) : 0 ≤ pyRound q := by
  have := pyRound_mono h
  rwa [show pyRound 0 = 0 from pyRound_eq_int (by norm_num)] at this

theorem pyRound_le_100 {q : ℚ} (h : q ≤ 100) : pyRound q ≤ 100 := by
  have := pyRound_mono h
  rwa [show pyRound 100 = 100 from pyRound_eq_int (by norm_num)] at this

/-! ## List helper lemmas for the capped opportunity list -/

theorem mem_take8_of_mem_short {s : String} (P Q : List String)
    (hs : s ∈ P) (hP : P.length ≤ 8) : s ∈ (P ++ Q).take 8 := by
  rw [List.take_append_eq_append_take, List.take_of_length_le hP]
  exact List.mem_append_left _ hs

theorem mem_take8_middle (l1 l2 : List String) (s : String) (h7 : l1.length ≤ 7) :
    s ∈ (l1 ++ s :: l2).take 8 := by
  rw [List.take_append_eq_append_take]
  apply List.mem_append_right
  obtain ⟨k, hk⟩ : ∃ k, 8 - l1.length = k + 1 := ⟨7 - l1.length, by omega⟩
  rw [hk, List.take_succ_cons]
  exact List.mem_cons_self _ _

theorem length_cond_block {α : Type} (c : Prop) [Decidable c] (x : α) :
    (if c then [x] else []).length ≤ 1 := by
  split <;> simp

theorem thresholdOps_length_le (ofcom : Option OfcomRecord) :
    (thresholdOps ofcom).length ≤ 5 := by
  unfold thresholdOps
  dsimp only
  split_ifs <;> simp

theorem mem_opportunities_of_mem_take8 {s : String} {park : Park}
    {ofcom : Option OfcomRecord} {companies : List Company}
    (h : s ∈ (opsFull park ofcom companies).take 8) :
    s ∈ generate_opportunities park ofcom companies := by
  unfold generate_opportunities
  dsimp only
  split
  · exact h
  · exact List.mem_of_mem_take h

theorem opsFull_assoc (park : Park) (ofcom : Option OfcomRecord) (companies : List Company) :
    opsFull park ofcom companies
      = thresholdOps ofcom ++ (keywordOps park ++ (registryOps companies ++ scaleOps park)) := by
  simp [opsFull, List.append_assoc]

theorem mem_opportunities_of_mem_thresholdOps {s : String} (park : Park)
    (ofcom : Option OfcomRecord) (companies : List Company)
    (h : s ∈ thresholdOps ofcom) :
    s ∈ generate_opportunities park ofcom companies := by
  apply mem_opportunities_of_mem_take8
  rw [opsFull_assoc]
  exact mem_take8_of_mem_short _ _ h ((thresholdOps_length_le ofcom).trans (by norm_num))

/-! ## Helper lemmas: each opportunity rule fires into the capped list -/

theorem fullFibreOp_mem (park : Park) (ofcom : Option OfcomRecord) (companies : List Company)
    (h : getQ ofcom OfcomRecord.full_fibre_pct < 60) :
    fullFibreOpStr ∈ generate_opportunities park ofcom companies := by
  apply mem_opportunities_of_mem_thresholdOps
  simp [thresholdOps, h]

theorem gigabitOp_mem (park : Park) (ofcom : Option OfcomRecord) (companies : List Company)
    (h : getQ ofcom OfcomRecord.gigabit_pct < 50) :
    gigabitOpStr ∈ generate_opportunities park ofcom companies := by
  apply mem_opportunities_of_mem_thresholdOps
  simp [thresholdOps, h]

theorem migrationOp_mem (park : Park) (ofcom : Option OfcomRecord) (companies : List Company)
    (h1 : 60 < getQ ofcom OfcomRecord.full_fibre_pct)
    (h2 : getQ ofcom OfcomRecord.full_fibre_takeup_pct < 30) :
    migrationOpStr ∈ generate_opportunities park ofcom companies := by
  apply mem_opportunities_of_mem_thresholdOps
  simp [thresholdOps, h1, h2]

theorem indoor4gOp_mem (park : Park) (ofcom : Option OfcomRecord) (companies : List Company)
    (h : getQ ofcom OfcomRecord.indoor_4g_pct < 80) :
    indoor4gOpStr ∈ generate_opportunities park ofcom companies := by
  apply mem_opportunities_of_mem_thresholdOps
  simp [thresholdOps, h]

theorem fiveGOp_mem (park : Park) (ofcom : Option OfcomRecord) (companies : List Company)
    (h : getQ ofcom OfcomRecord.outdoor_5g_pct < 40) :
    fiveGOpStr ∈ generate_opportunities park ofcom companies := by
  apply mem_opportunities_of_mem_thresholdOps
  simp [thresholdOps, h]

theorem lifeSciOp_mem (park : Park) (ofcom : Option OfcomRecord) (companies : List Company)
    (h : kwHit lifeSciKws (pyLower (park.sector.getD "")) (pyLower (park.notes.getD "")) = true) :
    lifeSciOpStr ∈ generate_opportunities park ofcom companies := by
  apply mem_opportunities_of_mem_take8
  obtain ⟨rest, hrest⟩ : ∃ rest, keywordOps park = lifeSciOpStr :: rest := by
    unfold keywordOps
    dsimp only
    rw [if_pos h]
    exact ⟨_, rfl⟩
  rw [opsFull_assoc, hrest]
  exact mem_take8_middle _ _ _ ((thresholdOps_length_le ofcom).trans (by norm_num))

/-! ## Helper lemmas: each flag rule fires into the flags list -/

theorem ffBelow50Flag_mem (park : Park) (ofcom : Option OfcomRecord)
    (h : getQ ofcom OfcomRecord.full_fibre_pct < 50) :
    ffBelow50Title ∈ (generate_flags park ofcom).map Prod.fst := by
  simp [generate_flags, List.mem_append, h]

theorem ffGapFlag_mem (park : Park) (ofcom : Option OfcomRecord)
    (h1 : ¬ getQ ofcom OfcomRecord.full_fibre_pct < 50)
    (h2 : getQ ofcom OfcomRecord.full_fibre_pct < 75) :
    ffGapTitle ∈ (generate_flags park ofcom).map Prod.fst := by
  simp [generate_flags, List.mem_append, h1, h2]

theorem gigFlag_mem (park : Park) (ofcom : Option OfcomRecord)
    (h : getQ ofcom OfcomRecord.gigabit_pct < 50) :
    gigFlagTitle ∈ (generate_flags park ofcom).map Prod.fst := by
  simp [generate_flags, List.mem_append, h]

theorem takeupFlag_mem (park : Park) (ofcom : Option OfcomRecord)
    (h1 : 50 < getQ ofcom OfcomRecord.full_fibre_pct)
    (h2 : getQ ofcom OfcomRecord.full_fibre_takeup_pct < 25) :
    takeupFlagTitle ∈ (generate_flags park ofcom).map Prod.fst := by
  simp [generate_flags, List.mem_append, h1, h2]

theorem g4Flag_mem (park : Park) (ofcom : Option OfcomRecord)
    (h : getQ ofcom OfcomRecord.indoor_4g_pct < 75) :
    g4FlagTitle ∈ (generate_flags park ofcom).map Prod.fst := by
  simp [generate_flags, List.mem_append, h]

theorem g5Flag_mem (park : Park) (ofcom : Option OfcomRecord)
    (h : getQ ofcom OfcomRecord.outdoor_5g_pct < 30) :
    g5FlagTitle ∈ (generate_flags park ofcom).map Prod.fst := by
  simp [generate_flags, List.mem_append, h]

theorem lifeFlag_mem (park : Park) (ofcom : Option OfcomRecord)
    (h : kwHit flagLifeKws (pyLower (park.sector.getD "")) (pyLower (park.notes.getD "")) = true) :
    lifeFlagTitle ∈ (generate_flags park ofcom).map Prod.fst := by
  simp [generate_flags, List.mem_append, h]

theorem sensFlag_mem (park : Park) (ofcom : Option OfcomRecord)
    (h : kwHit flagSensKws (pyLower (park.sector.getD "")) (pyLower (park.notes.getD "")) = true) :
    sensFlagTitle ∈ (generate_flags park ofcom).map Prod.fst := by
  simp [generate_flags, List.mem_append, h]

/-! ## Claim C1 -/

/-- C1 counterexample: at the test vector of the spec (full fibre 45, gigabit 35,
take-up 10, no-decent 5, indoor 4G 60, outdoor 5G 20, sector "genomics
research park") the opportunity list is exactly the five strings below.
Although the no-decent percentage is 5 (above the claimed 2% threshold), no
last-mile opportunity appears: the code has no no-decent-broadband rule at
all, refuting the claim as stated. -/
theorem C1_counterexample :
    generate_opportunities parkC1 (some ofcomC1) [] =
        [fullFibreOpStr, gigabitOpStr, indoor4gOpStr, fiveGOpStr, lifeSciOpStr]
      ∧ 2 < getQ (some ofcomC1) OfcomRecord.no_decent_pct :=
  ⟨by decide, by decide⟩

/-- C1 (amended): the five threshold rules that exist fire independently at
full-fibre < 60, gigabit < 50, full-fibre > 60 with take-up < 30,
indoor 4G < 80, and outdoor 5G < 40, each contributing its opportunity
string (there is no no-decent-broadband rule and no last-mile opportunity);
the life-sciences keyword rule contributes its opportunity; and the flags
fire at the own thresholds of the flag engine (full-fibre < 50 or < 75,
gigabit < 50, full-fibre > 50 with take-up < 25, indoor 4G < 75,
outdoor 5G < 30), which differ from the opportunity thresholds. -/
theorem C1_threshold_rules (park : Park) (ofcom : Option OfcomRecord)
    (companies : List Company) :
    (getQ ofcom OfcomRecord.full_fibre_pct < 60 →
        fullFibreOpStr ∈ generate_opportunities park ofcom companies)
    ∧ (getQ ofcom OfcomRecord.gigabit_pct < 50 →
        gigabitOpStr ∈ generate_opportunities park ofcom companies)
    ∧ (60 < getQ ofcom OfcomRecord.full_fibre_pct ∧
          getQ ofcom OfcomRecord.full_fibre_takeup_pct < 30 →
        migrationOpStr ∈ generate_opportunities park ofcom companies)
    ∧ (getQ ofcom OfcomRecord.indoor_4g_pct < 80 →
        indoor4gOpStr ∈ generate_opportunities park ofcom companies)
    ∧ (getQ ofcom OfcomRecord.outdoor_5g_pct < 40 →
        fiveGOpStr ∈ generate_opportunities park ofcom companies)
    ∧ (kwHit lifeSciKws (pyLower (park.sector.getD "")) (pyLower (park.notes.getD "")) = true →
        lifeSciOpStr ∈ generate_opportunities park ofcom companies)
    ∧ (getQ ofcom OfcomRecord.full_fibre_pct < 50 →
        ffBelow50Title ∈ (generate_flags park ofcom).map Prod.fst)
    ∧ (¬ getQ ofcom OfcomRecord.full_fibre_pct < 50 →
        getQ ofcom OfcomRecord.full_fibre_pct < 75 →
        ffGapTitle ∈ (generate_flags park ofcom).map Prod.fst)
    ∧ (getQ ofcom OfcomRecord.gigabit_pct < 50 →
        gigFlagTitle ∈ (generate_flags park ofcom).map Prod.fst)
    ∧ (50 < getQ ofcom OfcomRecord.full_fibre_pct ∧
          getQ ofcom OfcomRecord.full_fibre_takeup_pct < 25 →
        takeupFlagTitle ∈ (generate_flags park ofcom).map Prod.fst)
    ∧ (getQ ofcom OfcomRecord.indoor_4g_pct < 75 →
        g4FlagTitle ∈ (generate_flags park ofcom).map Prod.fst)
    ∧ (getQ ofcom OfcomRecord.outdoor_5g_pct < 30 →
        g5FlagTitle ∈ (generate_flags park ofcom).map Prod.fst) :=
  ⟨fun h => fullFibreOp_mem park ofcom companies h,
   fun h => gigabitOp_mem park ofcom companies h,
   fun h => migrationOp_mem park ofcom companies h.1 h.2,
   fun h => indoor4gOp_mem park ofcom companies h,
   fun h => fiveGOp_mem park ofcom companies h,
   fun h => lifeSciOp_mem park ofcom companies h,
   fun h => ffBelow50Flag_mem park ofcom h,
   fun h1 h2 => ffGapFlag_mem park ofcom h1 h2,
   fun h => gigFlag_mem park ofcom h,
   fun h => takeupFlag_mem park ofcom h.1 h.2,
   fun h => g4Flag_mem park ofcom h,
   fun h => g5Flag_mem park ofcom h⟩

/-- Witness for C1: the amended theorem applied at the test vector of the spec. -/
theorem C1_threshold_rules_witness :
    (getQ (some ofcomC1) OfcomRecord.full_fibre_pct < 60
      ∧ fullFibreOpStr ∈ generate_opportunities parkC1 (some ofcomC1) [])
    ∧ (kwHit lifeSciKws (pyLower (parkC1.sector.getD "")) (pyLower (parkC1.notes.getD "")) = true
      ∧ lifeSciOpStr ∈ generate_opportunities parkC1 (some ofcomC1) [])
    ∧ (getQ (some ofcomC1) OfcomRecord.outdoor_5g_pct < 30
      ∧ g5FlagTitle ∈ (generate_flags parkC1 (some ofcomC1)).map Prod.fst) :=
  ⟨⟨by decide, (C1_threshold_rules parkC1 (some ofcomC1) []).1 (by decide)⟩,
   ⟨by decide, (C1_threshold_rules parkC1 (some ofcomC1) []).2.2.2.2.2.1 (by decide)⟩,
   ⟨by decide, (C1_threshold_rules parkC1 (some ofcomC1) []).2.2.2.2.2.2.2.2.2.2.2 (by decide)⟩⟩

/-! ## Claim C2 -/

/-- C2 counterexample: at a park with no keyword text, an area record above
every threshold, and no companies, `generate_opportunities` returns the
empty list — there is no fallback "baseline assessment recommended"
opportunity anywhere in the code, refuting both the "exactly one fallback
opportunity" and the "never empty" parts of the claim. -/
theorem C2_counterexample :
    generate_opportunities parkQuiet (some ofcomGood) [] = [] := by decide

/-- C2 (amended): if no threshold, keyword, registry, or tenant-scale rule
fires, `generate_opportunities` returns the empty list; no fallback entry is
appended, so the opportunity list can be empty. -/
theorem C2_no_rule_empty (park : Park) (ofcom : Option OfcomRecord)
    (companies : List Company)
    (h1 : ¬ getQ ofcom OfcomRecord.full_fibre_pct < 60)
    (h2 : ¬ getQ ofcom OfcomRecord.gigabit_pct < 50)
    (h3 : ¬ (60 < getQ ofcom OfcomRecord.full_fibre_pct ∧
        getQ ofcom OfcomRecord.full_fibre_takeup_pct < 30))
    (h4 : ¬ getQ ofcom OfcomRecord.indoor_4g_pct < 80)
    (h5 : ¬ getQ ofcom OfcomRecord.outdoor_5g_pct < 40)
    (h6 : ∀ kws ∈ [lifeSciKws, sensitiveKws, startupKws, energyKws, hpcKws, pharmaKws],
        kwHit kws (pyLower (park.sector.getD "")) (pyLower (park.notes.getD "")) = false)
    (h7 : activeCount companies < 20)
    (h8 : (tenantNum (park.tenants.getD "")).getD 0 ≤ 100) :
    generate_opportunities park ofcom companies = [] := by
  have hT : thresholdOps ofcom = [] := by
    unfold thresholdOps
    dsimp only
    rw [if_neg h1, if_neg h2, if_neg h3, if_neg h4, if_neg h5]
    rfl
  have k1 := h6 lifeSciKws (by simp)
  have k2 := h6 sensitiveKws (by simp)
  have k3 := h6 startupKws (by simp)
  have k4 := h6 energyKws (by simp)
  have k5 := h6 hpcKws (by simp)
  have k6 := h6 pharmaKws (by simp)
  have hK : keywordOps park = [] := by
    simp [keywordOps, k1, k2, k3, k4, k5, k6]
  have hR : registryOps companies = [] := by
    unfold registryOps
    dsimp only
    rw [if_neg (by omega)]
  have hS : scaleOps park = [] := by
    cases htn : tenantNum (park.tenants.getD "") with
    | none => simp [scaleOps, htn]
    | some t =>
      rw [htn] at h8
      simp only [Option.getD_some] at h8
      simp only [scaleOps, htn]
      rw [if_neg (by omega)]
  unfold generate_opportunities
  dsimp only
  unfold opsFull
  rw [hT, hK, hR, hS]
  rfl

/-- Witness for C2: the amended theorem applied at an all-absent park, a
record above every threshold, and an empty company list. -/
theorem C2_no_rule_empty_witness :
    (¬ getQ (some ofcomGood) OfcomRecord.full_fibre_pct < 60)
    ∧ generate_opportunities {} (some ofcomGood) [] = [] :=
  ⟨by decide, C2_no_rule_empty {} (some ofcomGood) []
      (by decide) (by decide) (by decide) (by decide) (by decide)
      (by decide) (by decide) (by decide)⟩

/-! ## Claim C3 -/

/-- C3: on a present record with non-negative percentage inputs,
`score_connectivity` returns exactly the rounded spec formula (the clamp
to [0,100] in the spec is a no-op because the weighted sum already lies in
[0,100]), the score is an integer in [0,100], the status boundaries are
exact (69 → Amber, 70 → Green, 39 → Red, 40 → Amber), and the absent record
yields the absent result. -/
theorem C3_score_connectivity (r : OfcomRecord)
    (hff : 0 ≤ r.full_fibre_pct.getD 0) (hgig : 0 ≤ r.gigabit_pct.getD 0)
    (hsup : 0 ≤ r.superfast_pct.getD 0) (hnd : 0 ≤ r.no_decent_pct.getD 0) :
    (score_connectivity (some r)).1 = some (pyRound (specClampedConn r))
    ∧ (∃ s : ℤ, (score_connectivity (some r)).1 = some s ∧ 0 ≤ s ∧ s ≤ 100)
    ∧ (∀ s : ℤ, (score_connectivity (some r)).1 = some s →
        ((s = 69 → (score_connectivity (some r)).2 = "Amber")
        ∧ (s = 70 → (score_connectivity (some r)).2 = "Green")
        ∧ (s = 39 → (score_connectivity (some r)).2 = "Red")
        ∧ (s = 40 → (score_connectivity (some r)).2 = "Amber")))
    ∧ score_connectivity none = (none, "No data") := by
  have t1 : (0:ℚ) ≤ min 40 (r.full_fibre_pct.getD 0 * 0.4) :=
    le_min (by norm_num) (mul_nonneg hff (by norm_num))
  have t2 : (0:ℚ) ≤ min 20 (r.gigabit_pct.getD 0 * 0.3) :=
    le_min (by norm_num) (mul_nonneg hgig (by norm_num))
  have t3 : (0:ℚ) ≤ min 20 (r.superfast_pct.getD 0 * 0.2) :=
    le_min (by norm_num) (mul_nonneg hsup (by norm_num))
  have t4 : (0:ℚ) ≤ max 0 (20 - r.no_decent_pct.getD 0 * 2) := le_max_left _ _
  have u1 := min_le_left (40:ℚ) (r.full_fibre_pct.getD 0 * 0.4)
  have u2 := min_le_left (20:ℚ) (r.gigabit_pct.getD 0 * 0.3)
  have u3 := min_le_left (20:ℚ) (r.superfast_pct.getD 0 * 0.2)
  have u4 : max 0 (20 - r.no_decent_pct.getD 0 * 2) ≤ 20 :=
    max_le (by norm_num) (by nlinarith)
  have h0 : 0 ≤ connRaw r := by unfold connRaw; linarith
  have h100 : connRaw r ≤ 100 := by unfold connRaw; linarith
  have hclamp : specClampedConn r = connRaw r := by
    unfold specClampedConn
    rw [min_eq_right h100, max_eq_right h0]
  refine ⟨by simp [score_connectivity, hclamp], ?_, ?_, rfl⟩
  · exact ⟨pyRound (connRaw r), by simp [score_connectivity],
      pyRound_nonneg h0, pyRound_le_100 h100⟩
  · intro s hs
    simp only [score_connectivity, Option.some.injEq] at hs
    subst hs
    refine ⟨?_, ?_, ?_, ?_⟩ <;> intro hv <;> simp [score_connectivity, hv]

/-- Witness for C3: the theorem applied at a record whose weighted sum is
exactly 69. -/
theorem C3_witness :
    ((0:ℚ) ≤ ofcom69.full_fibre_pct.getD 0 ∧ (0:ℚ) ≤ ofcom69.no_decent_pct.getD 0)
    ∧ (∃ s : ℤ, (score_connectivity (some ofcom69)).1 = some s ∧ 0 ≤ s ∧ s ≤ 100) :=
  ⟨⟨by decide, by decide⟩,
   (C3_score_connectivity ofcom69 (by decide) (by decide) (by decide) (by decide)).2.1⟩

/-! ## Claim C4 -/

/-- C4 counterexample: with no threshold or keyword rule firing, 20 active
companies, and tenants "150", the opportunity list is the registry entry
followed by the scale entry — the code evaluates the registry rule before
the tenant-scale rule, the reverse of the claimed order, and appends no
fallback. -/
theorem C4_counterexample :
    generate_opportunities parkC4 (some ofcomGood) companies20
      = [registryOpStr 20, scaleOpStr] := by decide

/-- C4 (amended): the opportunity list is the first 8 entries (truncating
from the end) of the rule outputs in evaluation order — threshold rules,
then keyword rules, then the registry rule, then the tenant-scale rule,
with no fallback — so it never exceeds 8 entries; the flags list is never
truncated: every flag rule that fires contributes its entry. -/
theorem C4_order_and_cap (park : Park) (ofcom : Option OfcomRecord)
    (companies : List Company) :
    generate_opportunities park ofcom companies
      = (thresholdOps ofcom ++ keywordOps park ++ registryOps companies ++ scaleOps park).take 8
    ∧ (generate_opportunities park ofcom companies).length ≤ 8
    ∧ (getQ ofcom OfcomRecord.full_fibre_pct < 50 →
        ffBelow50Title ∈ (generate_flags park ofcom).map Prod.fst)
    ∧ (¬ getQ ofcom OfcomRecord.full_fibre_pct < 50 →
        getQ ofcom OfcomRecord.full_fibre_pct < 75 →
        ffGapTitle ∈ (generate_flags park ofcom).map Prod.fst)
    ∧ (getQ ofcom OfcomRecord.gigabit_pct < 50 →
        gigFlagTitle ∈ (generate_flags park ofcom).map Prod.fst)
    ∧ (50 < getQ ofcom OfcomRecord.full_fibre_pct ∧
          getQ ofcom OfcomRecord.full_fibre_takeup_pct < 25 →
        takeupFlagTitle ∈ (generate_flags park ofcom).map Prod.fst)
    ∧ (getQ ofcom OfcomRecord.indoor_4g_pct < 75 →
        g4FlagTitle ∈ (generate_flags park ofcom).map Prod.fst)
    ∧ (getQ ofcom OfcomRecord.outdoor_5g_pct < 30 →
        g5FlagTitle ∈ (generate_flags park ofcom).map Prod.fst)
    ∧ (kwHit flagLifeKws (pyLower (park.sector.getD "")) (pyLower (park.notes.getD "")) = true →
        lifeFlagTitle ∈ (generate_flags park ofcom).map Prod.fst)
    ∧ (kwHit flagSensKws (pyLower (park.sector.getD "")) (pyLower (park.notes.getD "")) = true →
        sensFlagTitle ∈ (generate_flags park ofcom).map Prod.fst) := by
  have heq : generate_opportunities park ofcom companies
      = (opsFull park ofcom companies).take 8 := by
    unfold generate_opportunities
    dsimp only
    split
    · rfl
    · next h => exact (List.take_of_length_le (le_of_not_lt h)).symm
  refine ⟨heq, ?_, fun h => ffBelow50Flag_mem park ofcom h,
    fun h1 h2 => ffGapFlag_mem park ofcom h1 h2,
    fun h => gigFlag_mem park ofcom h,
    fun h => takeupFlag_mem park ofcom h.1 h.2,
    fun h => g4Flag_mem park ofcom h,
    fun h => g5Flag_mem park ofcom h,
    fun h => lifeFlag_mem park ofcom h,
    fun h => sensFlag_mem park ofcom h⟩
  rw [heq, List.length_take]
  exact min_le_left _ _

/-- Witness for C4: the amended theorem applied at a concrete park and
record, exercising the ordering equation and a flag implication. -/
theorem C4_order_and_cap_witness :
    (generate_opportunities parkC4 (some ofcomBad) []
      = (thresholdOps (some ofcomBad) ++ keywordOps parkC4 ++ registryOps []
          ++ scaleOps parkC4).take 8)
    ∧ (getQ (some ofcomBad) OfcomRecord.full_fibre_pct < 50
      ∧ ffBelow50Title ∈ (generate_flags parkC4 (some ofcomBad)).map Prod.fst) :=
  ⟨(C4_order_and_cap parkC4 (some ofcomBad) []).1,
   ⟨by decide, (C4_order_and_cap parkC4 (some ofcomBad) []).2.2.1 (by decide)⟩⟩

/-! ## Claim C5 -/

/-- C5 counterexample: a present record carrying only a broadband field (so
all three mobile fields are absent) gets the numeric mobile score 0, not
the absent result, refuting the "record lacks mobile fields entirely →
absent" part of the claim. -/
theorem C5_counterexample :
    score_mobile (some ffOnly) = some 0 ∧ score_mobile (some ffOnly) ≠ none := by
  have h0 : pyRound (mobileRaw ffOnly) = 0 :=
    pyRound_eq_int (by norm_num [mobileRaw, ffOnly])
  exact ⟨by simp [score_mobile, h0], by simp [score_mobile]⟩

/-- C5 (amended): `score_mobile` returns the absent result exactly when the
record itself is the absent/no-data one; a present record lacking all three
mobile fields yields the numeric score 0 instead. -/
theorem C5_mobile_absent :
    (∀ ofcom : Option OfcomRecord, score_mobile ofcom = none ↔ ofcom = none)
    ∧ (∀ r : OfcomRecord, r.indoor_4g_pct = none → r.outdoor_5g_pct = none →
        r.indoor_voice_pct = none → score_mobile (some r) = some 0) := by
  constructor
  · intro ofcom
    cases ofcom with
    | none => simp [score_mobile]
    | some r => simp [score_mobile]
  · intro r h4 h5 hv
    have h0 : pyRound (mobileRaw r) = 0 := by
      apply pyRound_eq_int
      simp only [mobileRaw, h4, h5, hv, Option.getD_none]
      norm_num
    simp [score_mobile, h0]

/-- Witness for C5: the amended theorem applied at the all-absent record. -/
theorem C5_mobile_absent_witness :
    (({} : OfcomRecord).indoor_4g_pct = none)
    ∧ score_mobile (some ({} : OfcomRecord)) = some 0 :=
  ⟨rfl, C5_mobile_absent.2 {} rfl rfl rfl⟩

/-! ## Claim C6 -/

/-- C6: a raw area entry whose four headline fields (full-fibre, gigabit,
indoor 4G, outdoor 5G) are all present and all numerically zero is
normalized to the "no data" marker rather than an all-zero record. -/
theorem C6_zero_guard (e : RawArea) (c : ConnData) (m : MobileData)
    (hc : e.connectivity = some c) (hm : e.mobile = some m)
    (hff : c.full_fibre_pct = some 0) (hgig : c.gigabit_pct = some 0)
    (h4g : m.indoor_4g_all_operators_pct = some 0)
    (h5g : m.outdoor_5g_all_operators_pct = some 0) :
    flatten_ofcom (some e) = none := by
  simp [flatten_ofcom, hc, hm, hff, hgig, h4g, h5g]

/-- Witness for C6: the theorem applied at the concrete all-zero entry. -/
theorem C6_zero_guard_witness :
    (rawZero.connectivity = some connZero ∧ rawZero.mobile = some mobZero
      ∧ connZero.full_fibre_pct = some 0 ∧ connZero.gigabit_pct = some 0
      ∧ mobZero.indoor_4g_all_operators_pct = some 0
      ∧ mobZero.outdoor_5g_all_operators_pct = some 0)
    ∧ flatten_ofcom (some rawZero) = none :=
  ⟨⟨rfl, rfl, rfl, rfl, rfl, rfl⟩,
   C6_zero_guard rawZero connZero mobZero rfl rfl rfl rfl rfl rfl⟩

/-! ## Claim C7 -/

/-- C7: the numeric connectivity score is monotonically non-decreasing when
the full-fibre, gigabit, or superfast percentage grows (other fields held
fixed) and non-increasing when the no-decent-broadband percentage grows;
the first conjunct ties the compared quantity to the output of
`score_connectivity`. -/
theorem C7_monotonicity (r : OfcomRecord) (a b : ℚ) (hab : a ≤ b) :
    (∀ x : OfcomRecord, (score_connectivity (some x)).1 = some (pyRound (connRaw x)))
    ∧ pyRound (connRaw { r with full_fibre_pct := some a })
        ≤ pyRound (connRaw { r with full_fibre_pct := some b })
    ∧ pyRound (connRaw { r with gigabit_pct := some a })
        ≤ pyRound (connRaw { r with gigabit_pct := some b })
    ∧ pyRound (connRaw { r with superfast_pct := some a })
        ≤ pyRound (connRaw { r with superfast_pct := some b })
    ∧ pyRound (connRaw { r with no_decent_pct := some b })
        ≤ pyRound (connRaw { r with no_decent_pct := some a }) := by
  refine ⟨fun x => rfl, ?_, ?_, ?_, ?_⟩
  · apply pyRound_mono
    simp only [connRaw, Option.getD_some]
    have h1 : min (40:ℚ) (a * 0.4) ≤ min 40 (b * 0.4) :=
      min_le_min (le_refl _) (by linarith)
    linarith
  · apply pyRound_mono
    simp only [connRaw, Option.getD_some]
    have h1 : min (20:ℚ) (a * 0.3) ≤ min 20 (b * 0.3) :=
      min_le_min (le_refl _) (by linarith)
    linarith
  · apply pyRound_mono
    simp only [connRaw, Option.getD_some]
    have h1 : min (20:ℚ) (a * 0.2) ≤ min 20 (b * 0.2) :=
      min_le_min (le_refl _) (by linarith)
    linarith
  · apply pyRound_mono
    simp only [connRaw, Option.getD_some]
    have h1 : max (0:ℚ) (20 - b * 2) ≤ max 0 (20 - a * 2) :=
      max_le_max (le_refl _) (by linarith)
    linarith

/-- Witness for C7: the theorem applied at the test-vector record with the
full-fibre value raised from 10 to 20. -/
theorem C7_monotonicity_witness :
    ((10:ℚ) ≤ 20)
    ∧ pyRound (connRaw { ofcomC1 with full_fibre_pct := some 10 })
        ≤ pyRound (connRaw { ofcomC1 with full_fibre_pct := some 20 }) :=
  ⟨by decide, (C7_monotonicity ofcomC1 10 20 (by decide)).2.1⟩

/-! ## Claim C8 -/

/-- C8: whenever the dataset contains an entry whose key matches the query
exactly after case and surrounding-whitespace folding, `get_ofcom` returns
the normalized value of an exact-matching entry — the substring fallback is
never consulted, so a key matching only by substring cannot win. -/
theorem C8_exact_wins (la : String) (data : List (String × Option RawArea))
    (k : String) (v : Option RawArea)
    (hmem : (k, v) ∈ data) (hexact : pyStrip (pyLower k) = pyStrip (pyLower la)) :
    ∃ k' v', (k', v') ∈ data ∧ pyStrip (pyLower k') = pyStrip (pyLower la)
      ∧ get_ofcom la data = flatten_ofcom v' := by
  have hsome : (data.find? (fun kv => pyStrip (pyLower kv.1) == pyStrip (pyLower la))).isSome := by
    rw [List.find?_isSome]
    exact ⟨(k, v), hmem, by simpa using hexact⟩
  obtain ⟨kv', hfind⟩ := Option.isSome_iff_exists.mp hsome
  have hmem' : kv' ∈ data := List.mem_of_find?_eq_some hfind
  have hpred : pyStrip (pyLower kv'.1) = pyStrip (pyLower la) := by
    have := List.find?_some hfind
    simpa using this
  refine ⟨kv'.1, kv'.2, by simpa using hmem', hpred, ?_⟩
  have hne : data.isEmpty = false := by
    cases data with
    | nil => cases hmem
    | cons x xs => rfl
  unfold get_ofcom
  rw [hne]
  simp only [Bool.false_eq_true, if_false]
  rw [hfind]

/-- Witness for C8: a dataset whose first key ("Oxfordshire") matches the
query "oxford" only by substring while its second key (" Oxford") matches
exactly; the theorem applies and the first conjuncts check the setup. -/
theorem C8_exact_wins_witness :
    ((" Oxford", (some rawZero : Option RawArea)) ∈ areaDataOx
      ∧ pyIn (pyStrip (pyLower ("oxford"))) (pyLower ("Oxfordshire")) = true
      ∧ pyStrip (pyLower ("Oxfordshire")) ≠ pyStrip (pyLower ("oxford")))
    ∧ ∃ k' v', (k', v') ∈ areaDataOx ∧ pyStrip (pyLower k') = pyStrip (pyLower ("oxford"))
        ∧ get_ofcom ("oxford") areaDataOx = flatten_ofcom v' :=
  ⟨⟨by decide, by decide, by decide⟩,
   C8_exact_wins ("oxford") areaDataOx (" Oxford") (some rawZero) (by decide) (by decide)⟩

/-! ## Claim C9 -/

/-- C9: the code truncates each industry code to its first four characters
and tests the resulting number for exact membership in the sector code
sets, so a five-digit SIC code beginning with a two-digit sector code
contributes nothing: an active company with code "72190" (division 72,
scientific research and development) yields no sector count at all,
contradicting the claimed numeric-prefix matching — while a bare "72" does
count, a four-digit-prefixed "86301" counts for the 8630 entry, and a
non-active company never counts. -/
theorem C9_sic_prefix_bug :
    classify_companies [{ company_status := "active", sic_codes := ["72190"] }] = []
    ∧ classify_companies [{ company_status := "active", sic_codes := ["72"] }]
        = [("Research & Development", 1)]
    ∧ classify_companies [{ company_status := "active", sic_codes := ["86301"] }]
        = [("Pharma & Biotech", 1)]
    ∧ classify_companies [{ company_status := "dissolved", sic_codes := ["72"] }] = [] :=
  ⟨by decide, by decide, by decide, by decide⟩

/-! ## Claim C10 -/

/-- C10: the non-empty raw entry whose connectivity and mobile sub-groups
are present but carry none of the ten canonical fields is normalized to a
present record with every field absent (not the "no data" marker), and
`score_connectivity` on that record returns the numeric score 20 with
status Red (the no-decent term with all inputs defaulted to 0) instead of
the absent result. -/
theorem C10_empty_groups_score :
    flatten_ofcom (some rawEmptyGroups) = some {}
    ∧ score_connectivity (some ({} : OfcomRecord)) = (some 20, "Red") := by
  refine ⟨by decide, ?_⟩
  have h20 : pyRound (connRaw {}) = 20 := pyRound_eq_int (by norm_num [connRaw])
  simp [score_connectivity, h20]

end ParkIntel
